import Mathlib

/-!
# Verification of the ppMusicaa boundary-layer derived-quantity engine

Shallow embedding of the core of the repository:

* `ppModule/compute/compute_2d_curv.py` — class `Compute2DCurv`: freestream
  detection, discontinuity repair, thickness integrators, wall-stress
  calculator;
* `interface.py` — class `PostProcessMusicaa`: the orchestrator method
  `compute_qty` together with `_check_normal` and `COMPUTED_VARIABLES`.

Modelling conventions:

* Machine floats are modelled as exact rationals (`ℚ`).  The square root
  (`** 0.5` in the source) is modelled by `ratSqrt`, which is exact on
  perfect squares of rationals; every concrete input evaluated in this file
  uses only perfect-square radicands, and no general theorem depends on the
  value of `ratSqrt` (it occurs identically on both sides).
* numpy 2-D statistics arrays become total functions `Nat → Nat → ℚ`;
  1-D derived arrays become `List ℚ`.  numpy division by zero, which yields
  `inf`/`nan` in the source, is modelled explicitly where the source can hit
  it (see `relJumpB`).
* The per-block statistics dictionary becomes an association list
  `BlockStats`; a missing key (Python `KeyError`) or a value of the wrong
  shape (Python `TypeError`/`IndexError`) is an `Except.error`, and the
  `try/except` dispatch boundary of `compute_qty` becomes a `match` on that
  `Except`.
* The two scipy collaborators `gaussian_filter1d` and `interp1d(kind="cubic")`
  are external library calls; they are abstracted as parameters
  `sm : ℚ → List ℚ → List ℚ` (sigma, data) and
  `ip : List ℚ → List ℚ → ℚ → ℚ` (xs, ys, evaluation point).  Every theorem
  below either holds for all such parameters or takes the properties it
  needs (e.g. length preservation of the smoother) as hypotheses.
-/

set_option maxRecDepth 20000

namespace PPMusicaa

/-- Exact square root helper on naturals: largest `k` with `k*k ≤ n`
(agrees with the real square root on perfect squares, which is all this
development ever evaluates). -/
def natSqrt (n : Nat) : Nat :=
  ((List.range (n + 1)).filter (fun k => k * k ≤ n)).getLastD 0

/-- Model of `** 0.5` from the source.  Exact on perfect squares of
rationals; no theorem below depends on its value elsewhere. -/
def ratSqrt (q : ℚ) : ℚ :=
  if q.num < 0 then 0 else (natSqrt q.num.toNat : ℚ) / (natSqrt q.den : ℚ)

/-- Model of Python `int(...)` applied to the nonnegative float indices the
engine produces (`int` truncates; for the nonnegative values that occur as
indices this is the floor `num / den`). -/
def pyIntNat (q : ℚ) : Nat :=
  if 0 ≤ q.num then q.num.toNat / q.den else 0

/-- A value stored in a per-block statistics dictionary:
a raw 2-D field, a derived 1-D array, a float scalar (numpy broadcast), or a
Python `int` (the `j99 = 1` of wall-less blocks). -/
inductive StatVal where
  | arr2 (f : Nat → Nat → ℚ)
  | arr1 (l : List ℚ)
  | scal (q : ℚ)
  | natv (n : Nat)

/-- Per-block statistics dictionary (`self.stats[block]` in the source). -/
abbrev BlockStats := List (String × StatVal)

/-- Dictionary read, `d[k]` without the `KeyError`. -/
def lookupStat : BlockStats → String → Option StatVal
  | [], _ => none
  | (k', v) :: t, k => if k = k' then some v else lookupStat t k

/-- Dictionary write `d[k] = v` (replace in place, append new keys at the
end — Python dict semantics). -/
def setStat : BlockStats → String → StatVal → BlockStats
  | [], k, v => [(k, v)]
  | (k', v') :: t, k, v =>
    if k = k' then (k', v) :: t else (k', v') :: setStat t k v

/-- Dictionary read with `KeyError` (`self.stats[block][k]`). -/
def getStat (s : BlockStats) (k : String) : Except String StatVal :=
  match lookupStat s k with
  | some v => .ok v
  | none => .error "KeyError"

/-- Read a raw 2-D field; a value of another shape would fail on the
2-D indexing the callers perform immediately afterwards. -/
def getA2 (s : BlockStats) (k : String) : Except String (Nat → Nat → ℚ) :=
  match lookupStat s k with
  | some (.arr2 f) => .ok f
  | some _ => .error "TypeError"
  | none => .error "KeyError"

/-- View a stored 1-D value as a per-station function, mirroring numpy
broadcasting of scalars (`v[i]` would fail on a 2-D array). -/
def statFun : StatVal → Option (Nat → ℚ)
  | .arr1 l => some (fun i => l.getD i 0)
  | .scal q => some (fun _ => q)
  | .natv n => some (fun _ => (n : ℚ))
  | .arr2 _ => none

/-! ## Freestream detector (`Compute2DCurv._freestream_velocity`) -/

/-- Vorticity proxy, line 236–237 of `compute_2d_curv.py`:
`rho*dvx / rho - rho*duy / rho`. -/
def vortOf (rho rdvx rduy : Nat → Nat → ℚ) : Nat → Nat → ℚ :=
  fun i j => rdvx i j / rho i j - rduy i j / rho i j

/-- Separation offset for station `i` (lines 242–246): start at 1 and, for
each `j` in `range(1, ny)` with `uu[i, j] < 0`, move the scan start to
`j + 2`; the last such `j` wins. -/
def sepOffset (ny : Nat) (uu : Nat → Nat → ℚ) (i : Nat) : Nat :=
  (List.range' 1 (ny - 1)).foldl (fun acc j => if uu i j < 0 then j + 2 else acc) 1

/-- One station of the freestream scan (lines 248–254).  `np.where` on the
slice `[offset:]` yields positions *relative to the slice*; the source then
uses that relative position directly as a wall-normal index into `uu`
(`u_fst[i] = uu[i, ind_]`, `j_fst[i] = ind_`).  With no hit, fall back to
`uu[i, 1]` and leave `j_fst[i]` at its initial 0. -/
def fsStation (ny : Nat) (y vort uu : Nat → Nat → ℚ) (i : Nat) : ℚ × ℚ :=
  match (List.range (ny - sepOffset ny uu i)).find?
      (fun k => decide (-(y i (sepOffset ny uu i + k))
        * vort i (sepOffset ny uu i + k) < 1 / 50)) with
  | some k => (uu i k, (k : ℚ))
  | none => (uu i 1, 0)

/-- The scan loop of `_freestream_velocity` before the discontinuity check:
`u_fst` and `j_fst` start as zero arrays of length `nx` and the loop runs
over `i in range(1, nx)`, so station 0 keeps the value 0. -/
def freestreamRaw (nx ny : Nat) (y vort uu : Nat → Nat → ℚ) : List ℚ × List ℚ :=
  ((List.range nx).map fun i => if i = 0 then 0 else (fsStation ny y vort uu i).1,
   (List.range nx).map fun i => if i = 0 then 0 else (fsStation ny y vort uu i).2)

/-- Discontinuity test between consecutive entries (line 268):
`np.abs(u[k+1] - u[k]) / np.abs(u[k]) * 100 > 50`.  When `u[k] = 0` numpy
produces `inf` (greater than 50) if the numerator is nonzero and `nan`
(not greater than 50) if it is zero; the zero branch makes that explicit. -/
def relJumpB (u : List ℚ) (k : Nat) : Bool :=
  let a := u.getD k 0
  let b := u.getD (k + 1) 0
  if a = 0 then decide (b ≠ 0) else decide (|b - a| / |a| * 100 > 50)

/-- `m = np.where(...)` of line 268: the ascending list of discontinuity
positions. -/
def discList (u : List ℚ) : List Nat :=
  (List.range (u.length - 1)).filter (fun k => relJumpB u k)

/-- Last element with default (`m[-1]` on a list known nonempty). -/
def lastD : List Nat → Nat → Nat
  | [], d => d
  | a :: t, _ => lastD t a

/-- `Compute2DCurv._check_vel_discontinuity` (lines 259–305).
`sm` stands for `scipy.ndimage.gaussian_filter1d` (first argument: sigma)
and `ip` for `scipy.interpolate.interp1d(..., kind="cubic")` applied to one
evaluation point. `x` is the grid `x`-coordinate array of the block. -/
def checkVelDiscontinuity (sm : ℚ → List ℚ → List ℚ) (ip : List ℚ → List ℚ → ℚ → ℚ)
    (x : Nat → Nat → ℚ) (u jf : List ℚ) : List ℚ × List ℚ :=
  let m := discList u
  if m.isEmpty then (u, jf)
  else
    let i10 := m.headD 0
    if i10 = 0 then (u, jf)
    else
      let i1 := i10 - 1
      let i2 := lastD m 0 + 1
      let jI1 := pyIntNat (jf.getD i1 0)
      let jI2 := pyIntNat (jf.getD i2 0)
      let x1 := (List.range i1).map (fun t => x t jI1)
      let x2 := (List.range' i2 (u.length - i2)).map (fun t => x t jI2)
      let u1 := sm 2 (u.take i1)
      let u2 := sm 3 (u.drop i2)
      let xi := (List.range' i1 (i2 - i1)).map (fun t => x t jI2)
      let uI := xi.map (ip (x1 ++ x2) (u1 ++ u2))
      let jf2 := (List.range jf.length).map
        (fun t => if i1 ≤ t ∧ t < i2 then jf.getD i2 0 else jf.getD t 0)
      (u1 ++ uI ++ u2, jf2)

/-- `Compute2DCurv._freestream_velocity` (lines 231–257): the scan followed
by the discontinuity check. -/
def freestreamVelocity (sm : ℚ → List ℚ → List ℚ) (ip : List ℚ → List ℚ → ℚ → ℚ)
    (x y : Nat → Nat → ℚ) (nx ny : Nat)
    (rho rdvx rduy uu : Nat → Nat → ℚ) : List ℚ × List ℚ :=
  let vort := vortOf rho rdvx rduy
  let r := freestreamRaw nx ny y vort uu
  checkVelDiscontinuity sm ip x r.1 r.2

/-! ## δ99 thickness (`Compute2DCurv._d99_thickness`, lines 307–335) -/

/-- The quantity assigned to `d99[i]` by one iteration of the `while` loop
once `j` has been incremented to its current value (lines 320–332):
`l_jm1` is the straight-line distance from the wall point `(i,0)` to the
grid point `(i, j-1)`, `dl_j` the length of the segment from `j-1` to `j`,
and the assignment is `|l_j * normal_w[1, i]|` with
`l_j = dl_j * (0.99*ufst - uu[i,j-1]) / (uu[i,j] - uu[i,j-1]) + l_jm1`. -/
def d99Step (x y uu : Nat → Nat → ℚ) (u99 nwy : ℚ) (i j : Nat) : ℚ :=
  let ljm1 := ratSqrt ((y i (j - 1) - y i 0) ^ 2 + (x i (j - 1) - x i 0) ^ 2)
  let dl := ratSqrt ((y i j - y i (j - 1)) ^ 2 + (x i j - x i (j - 1)) ^ 2)
  |(dl * (u99 - uu i (j - 1)) / (uu i j - uu i (j - 1)) + ljm1) * nwy|

/-- The `while` loop of `_d99_thickness` for one station: state `(j, d)`,
guard `uu[i, j] < u99 ∧ j < ny - 1`; the fuel argument is `ny - 1 - j`, so
running out of fuel is exactly the bound check `j < ny - 1` failing. -/
def d99Go (x y uu : Nat → Nat → ℚ) (u99 nwy : ℚ) (i : Nat) :
    Nat → Nat → ℚ → ℚ × Nat
  | 0, j, d => (d, j)
  | fuel + 1, j, d =>
    if uu i j < u99 then
      d99Go x y uu u99 nwy i fuel (j + 1) (d99Step x y uu u99 nwy i (j + 1))
    else (d, j)

/-- One station of `_d99_thickness`: returns `(d99[i], jmax[i])`.
`u99` is `0.99 * ufst[i]` and `nwy` is `normal_w[1, i]`. -/
def d99Station (ny : Nat) (x y uu : Nat → Nat → ℚ) (u99 nwy : ℚ) (i : Nat) : ℚ × Nat :=
  d99Go x y uu u99 nwy i (ny - 1) 0 0

/-- Modelled from the spec's words for claim C4 (what `_d99_thickness` is
*described* to do): accumulated arc length along the probing path —
the sum of the Euclidean lengths of all consecutive segments up to `j`. -/
def arcLen (x y : Nat → Nat → ℚ) (i : Nat) : Nat → ℚ
  | 0 => 0
  | j + 1 => arcLen x y i j + ratSqrt ((y i (j + 1) - y i j) ^ 2 + (x i (j + 1) - x i j) ^ 2)

/-- Modelled from the spec's words for claim C4: interpolate within the last
segment from the *accumulated* arc length at `j-1`, then project with the
wall-normal `y`-component.  It exits at the same index the code's loop exits
at, so it differs from the code only in the base length. -/
def d99SpecStation (ny : Nat) (x y uu : Nat → Nat → ℚ) (u99 nwy : ℚ) (i : Nat) : ℚ :=
  let jf := (d99Station ny x y uu u99 nwy i).2
  if jf = 0 then 0
  else
    |(ratSqrt ((y i jf - y i (jf - 1)) ^ 2 + (x i jf - x i (jf - 1)) ^ 2)
        * (u99 - uu i (jf - 1)) / (uu i jf - uu i (jf - 1))
      + arcLen x y i (jf - 1)) * nwy|

/-! ## Displacement thickness (`Compute2DCurv._displacement_thickness`,
lines 337–358) -/

/-- `_displacement_thickness` for one block.  Line 348 is
`for j in range(self.stats[block]["j99"])`: the bound handed to `range` is
the *whole* `j99` entry, not `j99[i]`.  Python's `range` accepts an `int`
(the `natv` case, stored only for wall-less blocks) and raises `TypeError`
on a float array or float scalar — which is what `compute_d99` and
`compute_ufst` store for every wall block.  The error is raised when the
inner loop header of the first station runs, hence only when `nx > 0`. -/
def displacementThickness (nx : Nat) (x y rho uu : Nat → Nat → ℚ)
    (ufst rhofst : Nat → ℚ) (j99 : StatVal) : Except String (List ℚ) :=
  match j99 with
  | .natv n =>
    .ok ((List.range nx).map fun i =>
      (List.range n).foldl (fun acc j =>
        let arg1 := 1 - rho i j * uu i j / ufst i / rhofst i
        let arg2 := 1 - rho i (j + 1) * uu i (j + 1) / ufst i / rhofst i
        acc + (arg1 + arg2) / 2
          * ratSqrt ((x i (j + 1) - x i j) ^ 2 + (y i (j + 1) - y i j) ^ 2)) 0)
  | _ => if nx = 0 then .ok [] else .error "TypeError"

/-! ## Momentum thickness (`Compute2DCurv._momentum_thickness`,
lines 360–387) -/

/-- One station of `_momentum_thickness`.  `none` models the
`return np.zeros(nx)` short-circuit taken when `ufst[i] == 0.0` is observed
at the top of an inner-loop iteration (the zero-density guard on line 376
only logs and continues, so it does not appear here). -/
def momentumStation (x y uu : Nat → Nat → ℚ) (ufi : ℚ) (bound : Nat) (i : Nat) :
    Option ℚ :=
  (List.range bound).foldl (fun acc j =>
    match acc with
    | none => none
    | some t =>
      if ufi = 0 then none
      else
        let arg1 := uu i j / ufi * (1 - uu i j / ufi)
        let arg2 := uu i (j + 1) / ufi * (1 - uu i (j + 1) / ufi)
        some (t + (arg1 + arg2) / 2
          * ratSqrt ((x i (j + 1) - x i j) ^ 2 + (y i (j + 1) - y i j) ^ 2)))
    (some 0)

/-- `_momentum_thickness` for one block: inner bound
`min(ny - 1, int(j99[i]) + 10)`; if any station hits the zero-`ufst` guard
the whole block's result is `np.zeros(nx)` (the Python `return` inside the
loop discards every partial sum). -/
def momentumStations (nx ny : Nat) (x y uu : Nat → Nat → ℚ)
    (ufl jl : List ℚ) : List (Option ℚ) :=
  (List.range nx).map fun i =>
    momentumStation x y uu (ufl.getD i 0) (min (ny - 1) (pyIntNat (jl.getD i 0) + 10)) i

def momentumThickness (nx ny : Nat) (x y uu : Nat → Nat → ℚ)
    (ufl jl : List ℚ) : List ℚ :=
  if (momentumStations nx ny x y uu ufl jl).any (fun o => o.isNone) then
    List.replicate nx 0
  else (momentumStations nx ny x y uu ufl jl).map (fun o => o.getD 0)

/-! ## Wall-stress calculator (`Compute2DCurv._wall_normal_velocity`,
lines 389–405, and `compute_tauw`, lines 195–214) -/

/-- `_wall_normal_velocity`: tangent `t = (normal_y, -normal_x)`, then the
tangential-velocity wall-normal gradient at the wall row `j = 0` from the
four velocity-gradient moments divided by density. -/
def wallNormalVelocity (nx : Nat) (rho rdux rduy rdvx rdvy : Nat → Nat → ℚ)
    (nw : Fin 2 → Nat → ℚ) : List ℚ :=
  (List.range nx).map fun i =>
    let t0 := nw 1 i
    let t1 := -(nw 0 i)
    (-t1 * rdux i 0 / rho i 0 + t0 * rduy i 0 / rho i 0) * t0
      + (-t1 * rdvx i 0 / rho i 0 + t0 * rdvy i 0 / rho i 0) * t1

/-- The per-block arithmetic of `compute_tauw` (lines 202–207):
`mu_w = mu[:, 1]` — the viscosity is read at column **1** — then
`tauw = mu_w * dudn` and `cf = tauw / (0.5 * rho_fst * ufst ** 2)`. -/
def tauwBlock (nx : Nat) (mu rho rdux rduy rdvx rdvy : Nat → Nat → ℚ)
    (nw : Fin 2 → Nat → ℚ) (rhofst ufst : Nat → ℚ) : List ℚ × List ℚ :=
  let dudn := wallNormalVelocity nx rho rdux rduy rdvx rdvy nw
  let tauw := (List.range nx).map fun i => mu i 1 * dudn.getD i 0
  let cf := (List.range nx).map fun i =>
    tauw.getD i 0 / (1 / 2 * rhofst i * ufst i ^ 2)
  (tauw, cf)

/-! ## Engine state and the per-quantity methods of `Compute2DCurv` -/

/-- Read a derived 1-D array; subscripting (`v[i]`) a float or an int — the
shapes stored for wall-less blocks — raises `TypeError` in the source. -/
def getArr1 (s : BlockStats) (k : String) : Except String (List ℚ) :=
  match lookupStat s k with
  | some (.arr1 l) => .ok l
  | some _ => .error "TypeError"
  | none => .error "KeyError"

/-- The state shared by `Compute2DCurv` and the orchestrator: grid, per-block
mesh extents, boundary-condition characters
(`block_info[b]["Boundary conditions"][0][2]` and `[1][2]`), reference
scalars, the optional `nwall_normal` entry of the grid dictionary, and the
mutable statistics store. -/
structure Engine where
  nbloc : Nat
  nx : Nat → Nat
  ny : Nat → Nat
  gx : Nat → Nat → Nat → ℚ
  gy : Nat → Nat → Nat → ℚ
  nwallNormal : Option (Nat → Fin 2 → Nat → ℚ)
  uref : ℚ
  roref : ℚ
  bcA : Nat → Char
  bcB : Nat → Char
  stats : Nat → BlockStats

/-- No-slip wall at `jmin`: condition of lines 43–44 (`"0"` and `"-"`). -/
def isWall (e : Engine) (b : Nat) : Bool :=
  e.bcA b == '0' && e.bcB b == '-'

/-- `self.stats[block][k] = v`. -/
def setBlockStat (e : Engine) (b : Nat) (k : String) (v : StatVal) : Engine :=
  { e with stats := fun b' => if b' = b then setStat (e.stats b') k v else e.stats b' }

/-- `Compute2DCurv._in_stats` (lines 407–419): looks only at block 1. -/
def inStats (e : Engine) (k : String) : Bool :=
  (lookupStat (e.stats 1) k).isSome

/-- The `for block_id in range(1, nbloc + 1)` loops: any raised exception
aborts the whole method. -/
def foldBlocksGo (f : Engine → Nat → Except String Engine) :
    Engine → List Nat → Except String Engine
  | e, [] => .ok e
  | e, b :: t =>
    match f e b with
    | .error s => .error s
    | .ok e' => foldBlocksGo f e' t

def foldBlocks (e : Engine) (f : Engine → Nat → Except String Engine) :
    Except String Engine :=
  foldBlocksGo f e (List.range' 1 e.nbloc)

/-- The inlet hotfix of `compute_ufst` (lines 49–52): reading `ufst[0]`
(and, when it is zero, `ufst[1]`) raises `IndexError` on arrays that are too
short. -/
def hotfixInlet : List ℚ → Except String (List ℚ)
  | [] => .error "IndexError"
  | [u0] => if u0 = 0 then .error "IndexError" else .ok [u0]
  | u0 :: u1 :: t => .ok (if u0 = 0 then u1 :: u1 :: t else u0 :: u1 :: t)

/-- One block of `compute_ufst` (lines 41–66).  The slip-wall branch and the
no-wall branch of the source store exactly the same values (reference
velocity and the int `1`), so they are a single `else` here. -/
def ufstBlock (sm : ℚ → List ℚ → List ℚ) (ip : List ℚ → List ℚ → ℚ → ℚ)
    (e : Engine) (b : Nat) : Except String Engine :=
  if isWall e b then do
    let rho ← getA2 (e.stats b) "rho"
    let rdvx ← getA2 (e.stats b) "rho*dvx"
    let rduy ← getA2 (e.stats b) "rho*duy"
    let uu ← getA2 (e.stats b) "uu"
    let p := freestreamVelocity sm ip (e.gx b) (e.gy b) (e.nx b) (e.ny b) rho rdvx rduy uu
    let hot ← hotfixInlet p.1
    .ok (setBlockStat (setBlockStat e b "ufst" (.arr1 hot)) b "j99" (.arr1 p.2))
  else
    .ok (setBlockStat (setBlockStat e b "ufst" (.scal e.uref)) b "j99" (.natv 1))

/-- `Compute2DCurv.compute_ufst` (lines 37–69). -/
def computeUfst (sm : ℚ → List ℚ → List ℚ) (ip : List ℚ → List ℚ → ℚ → ℚ)
    (e : Engine) : Except String Engine :=
  foldBlocks e (ufstBlock sm ip)

/-- One block of `compute_rhofst` (lines 80–102): read `ufst` and `j99`
(lines 82–83, `KeyError` when absent — the method itself only computes
`ufst` on demand, nothing else).  Wall branch: `rho_fst[i] = rho[i,
int(j_fst[i])]` for `i in range(1, nx)`; since index 0 is never written it
is zero, so the inlet patch `rho_fst[0] = rho_fst[2]` (line 97) always
fires and raises `IndexError` when the array is shorter than 3. -/
def rhofstBlock (e : Engine) (b : Nat) : Except String Engine := do
  let uf ← getStat (e.stats b) "ufst"
  let jf ← getStat (e.stats b) "j99"
  if isWall e b then
    match uf, jf with
    | .arr1 _, .arr1 jl => do
      let rho ← getA2 (e.stats b) "rho"
      let base := (List.range (e.nx b)).map fun i =>
        if i = 0 then 0 else rho i (pyIntNat (jl.getD i 0))
      match base with
      | [] => .error "IndexError"
      | b0 :: rest =>
        if b0 = 0 then
          match rest.drop 1 with
          | [] => .error "IndexError"
          | v :: _ => .ok (setBlockStat e b "rho_fst" (.arr1 (v :: rest)))
        else .ok (setBlockStat e b "rho_fst" (.arr1 (b0 :: rest)))
    | _, _ => .error "TypeError"
  else
    .ok (setBlockStat e b "rho_fst" (.scal e.roref))

/-- `Compute2DCurv.compute_rhofst` (lines 72–105). -/
def computeRhofst (sm : ℚ → List ℚ → List ℚ) (ip : List ℚ → List ℚ → ℚ → ℚ)
    (e : Engine) : Except String Engine := do
  let e1 ← if inStats e "ufst" then pure e else computeUfst sm ip e
  foldBlocks e1 rhofstBlock

/-- The wall branch of `compute_d99` (lines 118–124) hands
`self.grid["nwall_normal"]` — the whole per-block *dict* produced by the
fallback `compute_wall_normal` — to `_d99_thickness` as `normal_w`, and
`_d99_thickness` evaluates `normal_w[1, i]` (line 332) inside its `while`
loop: indexing a dict with the tuple `(1, i)` raises `KeyError`.  The loop
body runs for station `i` exactly when `uu[i, 0] < 0.99 * ufst[i]` and
`0 < ny - 1`; when no station enters the loop, `d99` and `jmax` are
returned as zero arrays. -/
def d99BlockDict (nx ny : Nat) (uu : Nat → Nat → ℚ) (ul : List ℚ) :
    Except String (List ℚ × List ℚ) :=
  if (List.range nx).any
      (fun i => decide (uu i 0 < 99 / 100 * ul.getD i 0) && decide (2 ≤ ny)) then
    .error "KeyError"
  else .ok (List.replicate nx 0, List.replicate nx 0)

/-- `Compute2DCurv.compute_d99` (lines 108–132): reads
`self.grid["nwall_normal"]` first (line 113), computes `ufst` on demand,
then fills `d99` and overwrites `j99` per block. -/
def computeD99 (sm : ℚ → List ℚ → List ℚ) (ip : List ℚ → List ℚ → ℚ → ℚ)
    (e : Engine) : Except String Engine := do
  let _nw ← (match e.nwallNormal with
    | some d => Except.ok d
    | none => Except.error "KeyError")
  let e1 ← if inStats e "ufst" then pure e else computeUfst sm ip e
  foldBlocks e1 fun e2 b =>
    if isWall e2 b then do
      let uu ← getA2 (e2.stats b) "uu"
      let ul ← getArr1 (e2.stats b) "ufst"
      match d99BlockDict (e2.nx b) (e2.ny b) uu ul with
      | .error s => .error s
      | .ok p =>
        .ok (setBlockStat (setBlockStat e2 b "d99" (.arr1 p.1)) b "j99" (.arr1 p.2))
    else
      .ok (setBlockStat (setBlockStat e2 b "d99"
        (.arr1 (List.replicate (e2.nx b) 0))) b "j99" (.natv 1))

/-- `_displacement_thickness` reached through the statistics store: reads
`j99`, the raw fields, and `ufst`/`rho_fst` per station. -/
def displacementThicknessB (e : Engine) (b : Nat) : Except String (List ℚ) :=
  if e.nx b = 0 then .ok []
  else do
    let j99v ← getStat (e.stats b) "j99"
    let rho ← getA2 (e.stats b) "rho"
    let uu ← getA2 (e.stats b) "uu"
    let ufv ← getStat (e.stats b) "ufst"
    let rfv ← getStat (e.stats b) "rho_fst"
    match statFun ufv, statFun rfv with
    | some ufF, some rfF =>
      displacementThickness (e.nx b) (e.gx b) (e.gy b) rho uu ufF rfF j99v
    | _, _ => .error "TypeError"

/-- `Compute2DCurv.compute_delta` (lines 135–164): computes `ufst`, `d99`
and `rho_fst` on demand, then integrates per wall block. -/
def computeDelta (sm : ℚ → List ℚ → List ℚ) (ip : List ℚ → List ℚ → ℚ → ℚ)
    (e : Engine) : Except String Engine := do
  let e1 ← if inStats e "ufst" then pure e else computeUfst sm ip e
  let e2 ← if inStats e1 "d99" then pure e1 else computeD99 sm ip e1
  let e3 ← if inStats e2 "rho_fst" then pure e2 else computeRhofst sm ip e2
  foldBlocks e3 fun e4 b =>
    if isWall e4 b then do
      let dl ← displacementThicknessB e4 b
      .ok (setBlockStat e4 b "deltas" (.arr1 dl))
    else
      .ok (setBlockStat e4 b "deltas" (.arr1 (List.replicate (e4.nx b) 0)))

/-- `Compute2DCurv.compute_theta` (lines 167–192): same on-demand chain,
then `_momentum_thickness` for *every* block (no wall check), which
subscripts `ufst[i]`, `j99[i]` and `rho_fst[i]` — hence needs 1-D arrays. -/
def computeTheta (sm : ℚ → List ℚ → List ℚ) (ip : List ℚ → List ℚ → ℚ → ℚ)
    (e : Engine) : Except String Engine := do
  let e1 ← if inStats e "ufst" then pure e else computeUfst sm ip e
  let e2 ← if inStats e1 "d99" then pure e1 else computeD99 sm ip e1
  let e3 ← if inStats e2 "rho_fst" then pure e2 else computeRhofst sm ip e2
  foldBlocks e3 fun e4 b => do
    let uu ← getA2 (e4.stats b) "uu"
    let ufl ← getArr1 (e4.stats b) "ufst"
    let jl ← getArr1 (e4.stats b) "j99"
    let _rf ← getArr1 (e4.stats b) "rho_fst"
    .ok (setBlockStat e4 b "theta"
      (.arr1 (momentumThickness (e4.nx b) (e4.ny b) (e4.gx b) (e4.gy b) uu ufl jl)))

/-- `Compute2DCurv.compute_tauw` (lines 195–214).  Unlike every sibling
method it performs **no** on-demand prerequisite computation: it reads
`mu[:, 1]`, forms `dudn`, and then reads `rho_fst` and `ufst` straight from
the statistics store (lines 206–207) — `KeyError` when absent. -/
def computeTauw (e : Engine) : Except String Engine := do
  let nw ← (match e.nwallNormal with
    | some d => Except.ok d
    | none => Except.error "KeyError")
  foldBlocks e fun e2 b => do
    let mu ← getA2 (e2.stats b) "mu"
    let rho ← getA2 (e2.stats b) "rho"
    let rdux ← getA2 (e2.stats b) "rho*dux"
    let rduy ← getA2 (e2.stats b) "rho*duy"
    let rdvx ← getA2 (e2.stats b) "rho*dvx"
    let rdvy ← getA2 (e2.stats b) "rho*dvy"
    let rfv ← getStat (e2.stats b) "rho_fst"
    let ufv ← getStat (e2.stats b) "ufst"
    match statFun rfv, statFun ufv with
    | some rfF, some ufF =>
      let p := tauwBlock (e2.nx b) mu rho rdux rduy rdvx rdvy (nw b) rfF ufF
      .ok (setBlockStat (setBlockStat e2 b "tauw" (.arr1 p.1)) b "cf" (.arr1 p.2))
    | _, _ => .error "TypeError"

/-! ## Orchestrator (`PostProcessMusicaa.compute_qty`, `interface.py`) -/

/-- `COMPUTED_VARIABLES` (interface.py line 35). -/
def COMPUTED_VARIABLES : List String :=
  ["ufst", "rhofst", "d99", "delta", "theta", "tauw"]

/-- `Compute2DCurv.compute_wall_normal` (lines 217–229): the fallback
normal, `(0, 1)` at every station of every block. -/
def computeWallNormal (_e : Engine) : Nat → Fin 2 → Nat → ℚ :=
  fun _b c _i => if c = 0 then 0 else 1

/-- `PostProcessMusicaa._check_normal` in the situation modelled here
(no `norm_surf.dat` on disk): populate `grid["nwall_normal"]` with the
fallback when absent. -/
def ensureNormal (e : Engine) : Engine :=
  match e.nwallNormal with
  | some _ => e
  | none => { e with nwallNormal := some (computeWallNormal e) }

/-- Dynamic dispatch `getattr(self.compute, "compute_" + qty.lower())`:
the attributes `Compute2DCurv` actually has. -/
def engineMethods (sm : ℚ → List ℚ → List ℚ) (ip : List ℚ → List ℚ → ℚ → ℚ) :
    String → Option (Engine → Except String Engine) := fun name =>
  if name = "compute_ufst" then some (computeUfst sm ip)
  else if name = "compute_rhofst" then some (computeRhofst sm ip)
  else if name = "compute_d99" then some (computeD99 sm ip)
  else if name = "compute_delta" then some (computeDelta sm ip)
  else if name = "compute_theta" then some (computeTheta sm ip)
  else if name = "compute_tauw" then some computeTauw
  else none

/-- `PostProcessMusicaa.compute_qty` (interface.py lines 224–269):
ensure the wall normal, reject unsupported names, reject missing methods,
run the method inside `try/except`, and on success extract
`block_data.get(qty.lower(), None)` for every block. -/
def computeQty (sm : ℚ → List ℚ → List ℚ) (ip : List ℚ → List ℚ → ℚ → ℚ)
    (e : Engine) (qty : String) : List (Nat × Option StatVal) :=
  let e1 := ensureNormal e
  if (COMPUTED_VARIABLES.contains qty.toLower) = false then []
  else
    match engineMethods sm ip ("compute_" ++ qty.toLower) with
    | none => []
    | some m =>
      match m e1 with
      | .error _ => []
      | .ok e2 =>
        (List.range e2.nbloc).map fun k => (k + 1, lookupStat (e2.stats (k + 1)) qty.toLower)

/-! ## Concrete instances used by witnesses and counterexamples -/

/-- Length-preserving stand-in for `gaussian_filter1d` in closed statements
(only ever used on code paths that do not depend on the smoother's values,
or under explicitly discharged hypotheses). -/
def smoothId : ℚ → List ℚ → List ℚ := fun _ l => l

/-- Stand-in for the cubic interpolator in closed statements. -/
def interpZero : List ℚ → List ℚ → ℚ → ℚ := fun _ _ _ => 0

/-- C2 block data (`nx = 2`, `ny = 4`): at station `i = 1` the offset is 1
and the first wall-normal index at or beyond it meeting the vorticity
criterion is `j = 2`. -/
def cexY : Nat → Nat → ℚ := fun i j => if i = 1 ∧ j = 1 then -1 else 0

def cexRho : Nat → Nat → ℚ := fun _ _ => 1

def cexRdvx : Nat → Nat → ℚ := fun _ j => if j = 1 then 1 else 0

def cexRduy : Nat → Nat → ℚ := fun _ _ => 0

def cexUu : Nat → Nat → ℚ := fun _ j => if j = 1 then 3 else if j = 2 then 7 else 1

def cexX : Nat → Nat → ℚ := fun i _ => (i : ℚ)

/-- C4 probing path (station `i = 0`): grid points `(0,0)`, `(3,4)`,
`(6,0)`, `(6,8)` — a genuinely curved path whose chord from the wall
differs from its accumulated arc length, with all pairwise distances
perfect squares. -/
def c4x : Nat → Nat → ℚ := fun _ j => if j = 0 then 0 else if j = 1 then 3 else 6

def c4y : Nat → Nat → ℚ := fun _ j => if j = 1 then 4 else if j = 3 then 8 else 0

def c4u : Nat → Nat → ℚ := fun _ j =>
  if j = 0 then 0 else if j = 1 then 1 else if j = 2 then 2 else 10

/-- C5 data: uniform unit grid spacing, constant velocity. -/
def c5x : Nat → Nat → ℚ := fun _ j => (j : ℚ)

def c5f0 : Nat → Nat → ℚ := fun _ _ => 0

def c5f1 : Nat → Nat → ℚ := fun _ _ => 1

/-- C9 data: viscosity differs between the wall row 0 and row 1. -/
def c9mu : Nat → Nat → ℚ := fun _ j => if j = 0 then 1 else 2

/-- C9 wall normal `(0, 1)`. -/
def c9nw : Fin 2 → Nat → ℚ := fun c _ => if c = 0 then 0 else 1

def c9one : Nat → ℚ := fun _ => 1

/-- C1 scenario: single wall block, `nx = ny = 2`, fresh statistics store
holding only the raw fields, `nwall_normal` not yet read. -/
def freshStats : BlockStats :=
  [("rho", .arr2 c5f1), ("uu", .arr2 c5f1), ("mu", .arr2 c5f1),
   ("rho*dux", .arr2 c5f0), ("rho*duy", .arr2 c5f0),
   ("rho*dvx", .arr2 c5f0), ("rho*dvy", .arr2 c5f0)]

def freshE : Engine where
  nbloc := 1
  nx := fun _ => 2
  ny := fun _ => 2
  gx := fun _ i _ => (i : ℚ)
  gy := fun _ _ j => (j : ℚ)
  nwallNormal := none
  uref := 10
  roref := 1
  bcA := fun _ => '0'
  bcB := fun _ => '-'
  stats := fun _ => freshStats

/-- C10 scenario: two wall-less blocks, empty statistics store (only the
untouched dispatch path matters). -/
def demoE : Engine where
  nbloc := 2
  nx := fun _ => 2
  ny := fun _ => 2
  gx := fun _ i _ => (i : ℚ)
  gy := fun _ _ j => (j : ℚ)
  nwallNormal := none
  uref := 10
  roref := 2
  bcA := fun _ => 'p'
  bcB := fun _ => 'p'
  stats := fun _ => []

/-- Did the method succeed *and* store key `k` for block `b`? -/
def okAndHas (r : Except String Engine) (b : Nat) (k : String) : Bool :=
  match r with
  | .ok e' => (lookupStat (e'.stats b) k).isSome
  | .error _ => false

/-- `i1` of the repair branch (lines 271–275): first discontinuity index
minus one. -/
def repairI1 (u : List ℚ) : Nat := (discList u).headD 0 - 1

/-- `i2` of the repair branch (line 276): last discontinuity index plus
one. -/
def repairI2 (u : List ℚ) : Nat := lastD (discList u) 0 + 1

/-- Witness data for C8: a two-point >50% discontinuity at indices 1–2. -/
def c8u : List ℚ := [4, 4, 10, 4, 4]

def c8j : List ℚ := [9, 8, 7, 6, 5]

/-! ## Helper lemmas -/

/-- `getD` of a mapped index range. -/
lemma getD_map_range {f : Nat → ℚ} {n i : Nat} (h : i < n) :
    ((List.range n).map f).getD i 0 = f i := by
  simp [List.getD_eq_getElem?_getD, List.getElem?_map, List.getElem?_range h]

/-- A fold whose step function is absorbing on `none` stays `none`. -/
lemma foldl_none_absorb {α : Type} (F : Option ℚ → α → Option ℚ)
    (hF : ∀ a, F none a = none) (l : List α) : l.foldl F none = none := by
  induction l with
  | nil => rfl
  | cons a t ih => rw [List.foldl_cons, hF]; exact ih

/-- The default-carrying last element of a nonempty list is a member. -/
lemma lastD_mem_cons : ∀ (t : List Nat) (a d : Nat), lastD (a :: t) d ∈ a :: t := by
  intro t
  induction t with
  | nil => intro a d; simp [lastD]
  | cons b tb ih =>
    intro a d
    exact List.mem_cons_of_mem a (ih b a)

/-- In a `<`-sorted nonempty list the head is at most the last element. -/
lemma headD_le_lastD : ∀ (t : List Nat) (a : Nat),
    List.Pairwise (· < ·) (a :: t) → a ≤ lastD (a :: t) 0 := by
  intro t
  induction t with
  | nil => intro a _; simp [lastD]
  | cons b tb ih =>
    intro a hp
    have hab : a < b := (List.pairwise_cons.mp hp).1 b (List.mem_cons_self b tb)
    have hb := ih b (List.pairwise_cons.mp hp).2
    exact le_trans (le_of_lt hab) hb

/-- `discList` is strictly sorted (it is a filtered index range). -/
lemma discList_pairwise (u : List ℚ) : List.Pairwise (· < ·) (discList u) :=
  (List.pairwise_lt_range _).filter _

/-- Every discontinuity index is below `len - 1`. -/
lemma discList_bound (u : List ℚ) : ∀ b ∈ discList u, b < u.length - 1 := by
  intro b hb
  exact List.mem_range.mp (List.mem_of_mem_filter hb)

/-- If no consecutive pair trips the 50% test, `discList` is empty. -/
lemma discList_nil (u : List ℚ) (h : ∀ k, k + 1 < u.length → relJumpB u k = false) :
    discList u = [] := by
  unfold discList
  rw [List.filter_eq_nil_iff]
  intro k hk
  rw [List.mem_range] at hk
  simp [h k (by omega)]

/-! ## Claim theorems -/

/-- C1 (code_bug evidence): on a fresh Statistics Store holding only raw
variables, requesting "tauw" does *not* trigger the `rho_fst → ufst` chain:
`compute_tauw` performs no on-demand prerequisite computation, reads
`stats["rho_fst"]` straight away (line 206), raises `KeyError`, and
`compute_qty` catches it and returns the empty dict instead of per-block
`tauw` arrays of length `nx`.  The wall-normal fallback *is* populated
(that part of the chain exists, in `compute_qty` itself). -/
theorem tauw_fresh_store_returns_empty (sm : ℚ → List ℚ → List ℚ)
    (ip : List ℚ → List ℚ → ℚ → ℚ) :
    (ensureNormal freshE).nwallNormal.isSome = true
    ∧ computeTauw (ensureNormal freshE) = .error "KeyError"
    ∧ computeQty sm ip freshE "tauw" = [] := by
  refine ⟨by with_unfolding_all rfl, by with_unfolding_all rfl, ?_⟩
  with_unfolding_all rfl

/-- C3 (code_bug evidence): `_displacement_thickness` hands the *whole*
`j99` entry to `range` (line 348).  For every wall block the stored `j99`
is a per-station float array, so with at least one station the loop header
raises `TypeError` instead of integrating to the per-station bound
`j99[i] - 1`. -/
theorem displacement_array_bound_raises (nx : Nat) (x y rho uu : Nat → Nat → ℚ)
    (uf rf : Nat → ℚ) (jl : List ℚ) (h : 0 < nx) :
    displacementThickness nx x y rho uu uf rf (.arr1 jl) = .error "TypeError" := by
  unfold displacementThickness
  rw [if_neg (by omega)]

/-- Witness for C3 at a concrete wall block with one station. -/
theorem displacement_array_bound_raises_witness :
    displacementThickness 1 c5x c5f0 c5f1 c5f1 c9one c9one (.arr1 [2]) = .error "TypeError" :=
  displacement_array_bound_raises 1 c5x c5f0 c5f1 c5f1 c9one c9one [2] (by decide)

/-- One station of `_momentum_thickness` short-circuits to `none` as soon as
its inner loop runs with a zero freestream velocity. -/
lemma momentumStation_zero (x y uu : Nat → Nat → ℚ) (bound i : Nat) (hb : 0 < bound) :
    momentumStation x y uu 0 bound i = none := by
  obtain ⟨m, rfl⟩ : ∃ m, bound = m + 1 := ⟨bound - 1, by omega⟩
  unfold momentumStation
  rw [List.range_succ_eq_map, List.foldl_cons]
  have h0 : ((0 : ℚ) = 0) = True := by simp
  simp only [h0, if_true]
  exact foldl_none_absorb _ (fun a => rfl) _

/-- With an empty inner range a station contributes `some 0`. -/
lemma momentumStation_bound_zero (x y uu : Nat → Nat → ℚ) (ufi : ℚ) (i : Nat) :
    momentumStation x y uu ufi 0 i = some 0 := rfl

/-- C5: if the freestream-velocity array of a block is exactly zero at some
station `i < nx`, `_momentum_thickness` returns the all-zero array of
length `nx` for the whole block (the `return np.zeros(nx)` short-circuit of
lines 372–375; when `ny < 2` every inner range is empty and the integral is
identically zero as well), and in particular never divides by the zero
`ufst[i]` — the guard precedes the division in every iteration. -/
theorem momentum_zero_ufst_zeroes_block (nx ny : Nat) (x y uu : Nat → Nat → ℚ)
    (ufl jl : List ℚ) (h : ∃ i, i < nx ∧ ufl.getD i 0 = 0) :
    momentumThickness nx ny x y uu ufl jl = List.replicate nx 0 := by
  obtain ⟨i, hi, hz⟩ := h
  unfold momentumThickness
  by_cases hny : 2 ≤ ny
  · -- the station at `i` aborts, so the `any` test fires
    have hb : 0 < min (ny - 1) (pyIntNat (jl.getD i 0) + 10) :=
      lt_min_iff.mpr ⟨by omega, by omega⟩
    have hmem : (none : Option ℚ) ∈ momentumStations nx ny x y uu ufl jl := by
      refine List.mem_map.mpr ⟨i, List.mem_range.mpr hi, ?_⟩
      rw [hz]
      exact momentumStation_zero x y uu _ i hb
    rw [if_pos (List.any_eq_true.mpr ⟨none, hmem, rfl⟩)]
  · -- ny ≤ 1: every inner range is empty, every station is `some 0`
    have hst : momentumStations nx ny x y uu ufl jl
        = List.replicate nx (some (0 : ℚ)) := by
      refine List.eq_replicate_iff.mpr ⟨by simp [momentumStations], ?_⟩
      intro b hb
      obtain ⟨i', _, hio⟩ := List.mem_map.mp hb
      rw [← hio, show min (ny - 1) (pyIntNat (jl.getD i' 0) + 10) = 0 by omega]
      rfl
    have hany : (List.replicate nx (some (0 : ℚ))).any (fun o => o.isNone) = false := by
      rw [List.any_eq_false]
      intro o ho
      rw [List.eq_of_mem_replicate ho]
      simp
    rw [hst, hany]
    simp only [Bool.false_eq_true, if_false, List.map_replicate]
    rfl

/-- Witness for C5: `ufst = [5, 0]` zeroes the whole block. -/
theorem momentum_zero_ufst_zeroes_block_witness :
    momentumThickness 2 3 c5x c5f0 c5f1 [5, 0] [0, 0] = List.replicate 2 0 :=
  momentum_zero_ufst_zeroes_block 2 3 c5x c5f0 c5f1 [5, 0] [0, 0]
    ⟨1, by decide, by with_unfolding_all rfl⟩

/-- C6: the three non-fatal failure modes of `compute_qty` — unsupported
name, missing engine method, exception raised during computation — all
yield the empty dict; the embedding of `compute_qty` is a total function,
so no exception escapes the dispatch boundary. -/
theorem computeQty_failures_empty (sm : ℚ → List ℚ → List ℚ)
    (ip : List ℚ → List ℚ → ℚ → ℚ) (e : Engine) (qty : String)
    (h : COMPUTED_VARIABLES.contains qty.toLower = false
       ∨ engineMethods sm ip ("compute_" ++ qty.toLower) = none
       ∨ ∃ m err, engineMethods sm ip ("compute_" ++ qty.toLower) = some m
           ∧ m (ensureNormal e) = .error err) :
    computeQty sm ip e qty = [] := by
  unfold computeQty
  by_cases hc : COMPUTED_VARIABLES.contains qty.toLower = false
  · rw [if_pos hc]
  · rw [if_neg hc]
    rcases h with h | h | ⟨m, err, hm, he⟩
    · exact absurd h hc
    · simp only [h]
    · simp only [hm, he]

/-- Witness for C6: an unsupported quantity name. -/
theorem computeQty_failures_empty_witness :
    computeQty smoothId interpZero demoE "vort" = [] :=
  computeQty_failures_empty smoothId interpZero demoE "vort"
    (Or.inl (by with_unfolding_all rfl))

/-- C9 (amended): `tauw[i]` is the viscosity at row **1** (`mu[:, 1]`,
line 202) times the tangential-velocity wall-normal gradient, and
`cf[i] = tauw[i] / (0.5 * rho_fst[i] * ufst[i]^2)`; the gradient is the
tangent-projected combination of the four wall-row gradient moments. -/
theorem tauw_viscosity_row_one (nx : Nat) (mu rho rdux rduy rdvx rdvy : Nat → Nat → ℚ)
    (nw : Fin 2 → Nat → ℚ) (rhofst ufst : Nat → ℚ) (i : Nat) (h : i < nx) :
    (tauwBlock nx mu rho rdux rduy rdvx rdvy nw rhofst ufst).1.getD i 0
      = mu i 1 * ((-(-(nw 0 i)) * rdux i 0 / rho i 0 + nw 1 i * rduy i 0 / rho i 0) * nw 1 i
          + (-(-(nw 0 i)) * rdvx i 0 / rho i 0 + nw 1 i * rdvy i 0 / rho i 0) * -(nw 0 i))
    ∧ (tauwBlock nx mu rho rdux rduy rdvx rdvy nw rhofst ufst).2.getD i 0
      = (tauwBlock nx mu rho rdux rduy rdvx rdvy nw rhofst ufst).1.getD i 0
          / (1 / 2 * rhofst i * ufst i ^ 2) := by
  unfold tauwBlock
  constructor
  · rw [getD_map_range h]
    unfold wallNormalVelocity
    rw [getD_map_range h]
  · rw [getD_map_range h]

/-- Witness for C9 at the concrete block with `(0,1)` wall normal. -/
theorem tauw_viscosity_row_one_witness :
    (tauwBlock 1 c9mu c5f1 c5f0 c5f1 c5f0 c5f0 c9nw c9one c9one).2.getD 0 0
      = (tauwBlock 1 c9mu c5f1 c5f0 c5f1 c5f0 c5f0 c9nw c9one c9one).1.getD 0 0
          / (1 / 2 * c9one 0 * c9one 0 ^ 2) :=
  (tauw_viscosity_row_one 1 c9mu c5f1 c5f0 c5f1 c5f0 c5f0 c9nw c9one c9one 0 (by decide)).2

/-- Counterexample to C9 as stated: with viscosity 1 at the wall row 0 and
2 at row 1, and a unit tangential gradient, the computed `tauw[0]` is 2,
not `mu(0,0) * gradient = 1`. -/
theorem tauw_viscosity_row_zero_refuted :
    ¬ ((tauwBlock 1 c9mu c5f1 c5f0 c5f1 c5f0 c5f0 c9nw c9one c9one).1.getD 0 0
        = c9mu 0 0 * (wallNormalVelocity 1 c5f1 c5f0 c5f1 c5f0 c5f0 c9nw).getD 0 0) := by
  have h1 : (tauwBlock 1 c9mu c5f1 c5f0 c5f1 c5f0 c5f0 c9nw c9one c9one).1.getD 0 0 = 2 := by
    with_unfolding_all rfl
  have h2 : c9mu 0 0 * (wallNormalVelocity 1 c5f1 c5f0 c5f1 c5f0 c5f0 c9nw).getD 0 0 = 1 := by
    with_unfolding_all rfl
  rw [h1, h2]
  norm_num

/-- C10: `compute_qty` extracts under the keys `"rhofst"`/`"delta"` while
the engine stores the computed fields under `"rho_fst"`/`"deltas"`:
on the two-block store both computations succeed and store their fields,
yet `compute_qty` returns `None` for every block for both names. -/
theorem qty_key_mismatch_rhofst_delta (sm : ℚ → List ℚ → List ℚ)
    (ip : List ℚ → List ℚ → ℚ → ℚ) :
    okAndHas (computeRhofst sm ip (ensureNormal demoE)) 1 "rho_fst" = true
    ∧ okAndHas (computeRhofst sm ip (ensureNormal demoE)) 2 "rho_fst" = true
    ∧ okAndHas (computeDelta sm ip (ensureNormal demoE)) 1 "deltas" = true
    ∧ okAndHas (computeDelta sm ip (ensureNormal demoE)) 2 "deltas" = true
    ∧ computeQty sm ip demoE "rhofst" = [(1, none), (2, none)]
    ∧ computeQty sm ip demoE "delta" = [(1, none), (2, none)] := by
  refine ⟨?_, ?_, ?_, ?_, ?_, ?_⟩ <;> with_unfolding_all rfl

/-- C7: when no consecutive relative jump of `u_fst` exceeds 50% (the test
of line 268, including numpy's division-by-zero convention captured by
`relJumpB`), `_check_vel_discontinuity` returns its inputs unchanged. -/
theorem checkVel_no_discontinuity_id (sm : ℚ → List ℚ → List ℚ)
    (ip : List ℚ → List ℚ → ℚ → ℚ) (x : Nat → Nat → ℚ) (u jf : List ℚ)
    (h : ∀ k, k + 1 < u.length → relJumpB u k = false) :
    checkVelDiscontinuity sm ip x u jf = (u, jf) := by
  unfold checkVelDiscontinuity
  rw [discList_nil u h]
  rfl

/-- Witness for C7 on a 25%-jump profile. -/
theorem checkVel_no_discontinuity_id_witness :
    checkVelDiscontinuity smoothId interpZero cexX [4, 5, 5] [1, 1, 1]
      = ([4, 5, 5], [1, 1, 1]) := by
  refine checkVel_no_discontinuity_id smoothId interpZero cexX [4, 5, 5] [1, 1, 1] ?_
  intro k hk
  match k with
  | 0 => with_unfolding_all rfl
  | 1 => with_unfolding_all rfl
  | n + 2 => simp at hk; omega

/-- `find?` on `range' off m` is `find?` on `range m` with the offset added
to the predicate argument and to the result. -/
lemma find?_range' (p : Nat → Bool) :
    ∀ (m off : Nat), (List.range' off m).find? p
      = ((List.range m).find? (fun k => p (off + k))).map (off + ·) := by
  intro m
  induction m with
  | zero => intro off; rfl
  | succ m ih =>
    intro off
    rw [List.range'_succ, List.range_succ_eq_map]
    cases hp : p off with
    | true =>
      simp only [List.find?, Nat.add_zero, hp, Option.map_some']
    | false =>
      simp only [List.find?, Nat.add_zero, hp]
      rw [ih (off + 1), List.find?_map, Option.map_map]
      have h1 : ((fun k => p (off + k)) ∘ Nat.succ) = fun k => p (off + 1 + k) := by
        funext k
        simp only [Function.comp_apply]
        congr 1
        omega
      have h2 : ((off + ·) ∘ Nat.succ) = (off + 1 + ·) := by
        funext k
        simp only [Function.comp_apply]
        omega
      rw [h1, h2]

/-- When the raw scan leaves `u[0] = 0` next to a nonzero `u[1]`, the first
relative jump is infinite, `m[0] = 0`, and the repair returns unchanged
(lines 271–273). -/
lemma checkVel_headzero (sm : ℚ → List ℚ → List ℚ) (ip : List ℚ → List ℚ → ℚ → ℚ)
    (x : Nat → Nat → ℚ) (u jf : List ℚ) (hu0 : u.getD 0 0 = 0)
    (hu1 : u.getD 1 0 ≠ 0) (hlen : 2 ≤ u.length) :
    checkVelDiscontinuity sm ip x u jf = (u, jf) := by
  have hjump : relJumpB u 0 = true := by
    have hr : relJumpB u 0 = if u.getD 0 0 = 0 then decide (u.getD 1 0 ≠ 0)
        else decide (|u.getD 1 0 - u.getD 0 0| / |u.getD 0 0| * 100 > 50) := rfl
    rw [hr, if_pos hu0]
    exact decide_eq_true hu1
  have hdisc : ∃ rest, discList u = 0 :: rest := by
    unfold discList
    obtain ⟨m, hm⟩ : ∃ m, u.length - 1 = m + 1 := ⟨u.length - 2, by omega⟩
    rw [hm, List.range_succ_eq_map, List.filter_cons_of_pos hjump]
    exact ⟨_, rfl⟩
  obtain ⟨rest, hd⟩ := hdisc
  unfold checkVelDiscontinuity
  rw [hd]
  rfl

/-- C2 (amended): `_freestream_velocity` searches from the separation
offset, but `np.where` returns positions *relative to the slice* and the
code uses them directly as wall-normal indices (lines 248–252).  So when
the first absolute index at or beyond the offset satisfying
`-y·vorticity < 0.02` is `j`, the station receives `uu[i, j - offset]` and
`j_fst[i] = j - offset`; with no such index it falls back to `uu[i, 1]`.
This holds for stations `1 ≤ i < nx` (station 0 is never assigned), and the
returned arrays are the raw scan unchanged because the unassigned
`u_fst[0] = 0` next to a nonzero `u_fst[1]` makes the repair return
immediately. -/
theorem freestream_uses_slice_relative_index (sm : ℚ → List ℚ → List ℚ)
    (ip : List ℚ → List ℚ → ℚ → ℚ) (x y : Nat → Nat → ℚ)
    (nx ny : Nat) (rho rdvx rduy uu : Nat → Nat → ℚ) (h2 : 2 ≤ nx)
    (hnz : (freestreamRaw nx ny y (vortOf rho rdvx rduy) uu).1.getD 1 0 ≠ 0) :
    freestreamVelocity sm ip x y nx ny rho rdvx rduy uu
      = freestreamRaw nx ny y (vortOf rho rdvx rduy) uu
    ∧ ∀ i, 1 ≤ i → i < nx →
        (∀ j, (List.range' (sepOffset ny uu i) (ny - sepOffset ny uu i)).find?
              (fun j' => decide (-(y i j') * vortOf rho rdvx rduy i j' < 1 / 50)) = some j
          → (freestreamRaw nx ny y (vortOf rho rdvx rduy) uu).1.getD i 0
                = uu i (j - sepOffset ny uu i)
            ∧ (freestreamRaw nx ny y (vortOf rho rdvx rduy) uu).2.getD i 0
                = ((j - sepOffset ny uu i : Nat) : ℚ))
        ∧ ((List.range' (sepOffset ny uu i) (ny - sepOffset ny uu i)).find?
              (fun j' => decide (-(y i j') * vortOf rho rdvx rduy i j' < 1 / 50)) = none
          → (freestreamRaw nx ny y (vortOf rho rdvx rduy) uu).1.getD i 0 = uu i 1) := by
  constructor
  · have hu0 : (freestreamRaw nx ny y (vortOf rho rdvx rduy) uu).1.getD 0 0 = 0 := by
      rw [show (freestreamRaw nx ny y (vortOf rho rdvx rduy) uu).1
          = (List.range nx).map (fun i => if i = 0 then 0
              else (fsStation ny y (vortOf rho rdvx rduy) uu i).1) from rfl]
      rw [getD_map_range (by omega)]
      rfl
    have hlen : 2 ≤ (freestreamRaw nx ny y (vortOf rho rdvx rduy) uu).1.length := by
      simp only [freestreamRaw, List.length_map, List.length_range]
      omega
    exact checkVel_headzero sm ip x _ _ hu0 hnz hlen
  · intro i h1 hilt
    have hne : i ≠ 0 := by omega
    have hfst : (freestreamRaw nx ny y (vortOf rho rdvx rduy) uu).1.getD i 0
        = (fsStation ny y (vortOf rho rdvx rduy) uu i).1 := by
      rw [show (freestreamRaw nx ny y (vortOf rho rdvx rduy) uu).1
          = (List.range nx).map (fun i => if i = 0 then 0
              else (fsStation ny y (vortOf rho rdvx rduy) uu i).1) from rfl]
      rw [getD_map_range hilt, if_neg hne]
    have hsnd : (freestreamRaw nx ny y (vortOf rho rdvx rduy) uu).2.getD i 0
        = (fsStation ny y (vortOf rho rdvx rduy) uu i).2 := by
      rw [show (freestreamRaw nx ny y (vortOf rho rdvx rduy) uu).2
          = (List.range nx).map (fun i => if i = 0 then 0
              else (fsStation ny y (vortOf rho rdvx rduy) uu i).2) from rfl]
      rw [getD_map_range hilt, if_neg hne]
    constructor
    · intro j hj
      rw [find?_range'] at hj
      obtain ⟨k, hk, hoff⟩ := Option.map_eq_some'.mp hj
      subst hoff
      rw [hfst, hsnd]
      unfold fsStation
      rw [show (List.range (ny - sepOffset ny uu i)).find?
          (fun k => decide (-(y i (sepOffset ny uu i + k))
            * vortOf rho rdvx rduy i (sepOffset ny uu i + k) < 1 / 50)) = some k from hk]
      rw [Nat.add_sub_cancel_left]
      exact ⟨rfl, rfl⟩
    · intro hj
      rw [find?_range'] at hj
      have hk := Option.map_eq_none'.mp hj
      rw [hfst]
      unfold fsStation
      rw [show (List.range (ny - sepOffset ny uu i)).find?
          (fun k => decide (-(y i (sepOffset ny uu i + k))
            * vortOf rho rdvx rduy i (sepOffset ny uu i + k) < 1 / 50)) = none from hk]

/-- Witness for C2: at the concrete block the first absolute index past the
offset meeting the criterion is 2, and the station receives
`uu[1, 2 - offset] = uu[1, 1]`. -/
theorem freestream_uses_slice_relative_index_witness :
    (freestreamRaw 2 4 cexY (vortOf cexRho cexRdvx cexRduy) cexUu).1.getD 1 0
      = cexUu 1 (2 - sepOffset 4 cexUu 1) :=
  (((freestream_uses_slice_relative_index smoothId interpZero cexX cexY 2 4 cexRho cexRdvx
      cexRduy cexUu (by norm_num)
      (by rw [show (freestreamRaw 2 4 cexY (vortOf cexRho cexRdvx cexRduy) cexUu).1.getD 1 0
            = 3 from by with_unfolding_all rfl]
          norm_num)).2
    1 (by norm_num) (by norm_num)).1 2 (by with_unfolding_all rfl)).1

/-- Counterexample to C2 as stated: at station `i = 1` the offset is 1 and
the first wall-normal index at or beyond it with `-y·vorticity < 0.02` is
`j = 2`, but the returned `u_fst[1]` is `uu[1, 1] = 3`, not
`uu[1, 2] = 7`. -/
theorem freestream_absolute_index_refuted :
    sepOffset 4 cexUu 1 = 1
    ∧ (List.range' 1 3).find?
        (fun j => decide (-(cexY 1 j) * vortOf cexRho cexRdvx cexRduy 1 j < 1 / 50))
        = some 2
    ∧ (freestreamVelocity smoothId interpZero cexX cexY 2 4
        cexRho cexRdvx cexRduy cexUu).1.getD 1 0 = cexUu 1 1
    ∧ cexUu 1 1 = 3
    ∧ cexUu 1 2 = 7
    ∧ ¬ ((freestreamVelocity smoothId interpZero cexX cexY 2 4
        cexRho cexRdvx cexRduy cexUu).1.getD 1 0 = cexUu 1 2) := by
  refine ⟨by with_unfolding_all rfl, by with_unfolding_all rfl, by with_unfolding_all rfl,
    by with_unfolding_all rfl, by with_unfolding_all rfl, ?_⟩
  rw [show (freestreamVelocity smoothId interpZero cexX cexY 2 4
      cexRho cexRdvx cexRduy cexUu).1.getD 1 0 = 3 from by with_unfolding_all rfl]
  rw [show cexUu 1 2 = 7 from by with_unfolding_all rfl]
  norm_num

/-! ## C4: δ99 last-iteration characterisation -/

/-- The loop index of `d99Go` never decreases. -/
lemma d99Go_snd_ge (x y uu : Nat → Nat → ℚ) (u99 nwy : ℚ) (i : Nat) :
    ∀ fuel j d, j ≤ (d99Go x y uu u99 nwy i fuel j d).2 := by
  intro fuel
  induction fuel with
  | zero => intro j d; exact le_refl j
  | succ f ih =>
    intro j d
    unfold d99Go
    split
    · exact le_trans (Nat.le_succ j) (ih (j + 1) _)
    · exact le_refl j

/-- `d99Go` either returns its input accumulator (no iteration) or the
last-iteration assignment `d99Step` at the final index. -/
lemma d99Go_char (x y uu : Nat → Nat → ℚ) (u99 nwy : ℚ) (i : Nat) :
    ∀ fuel j d,
      ((d99Go x y uu u99 nwy i fuel j d).2 = j → (d99Go x y uu u99 nwy i fuel j d).1 = d)
      ∧ (j < (d99Go x y uu u99 nwy i fuel j d).2 →
          (d99Go x y uu u99 nwy i fuel j d).1
            = d99Step x y uu u99 nwy i (d99Go x y uu u99 nwy i fuel j d).2) := by
  intro fuel
  induction fuel with
  | zero =>
    intro j d
    exact ⟨fun _ => rfl, fun h => absurd h (lt_irrefl j)⟩
  | succ f ih =>
    intro j d
    unfold d99Go
    split
    · constructor
      · intro hj
        have := d99Go_snd_ge x y uu u99 nwy i f (j + 1) (d99Step x y uu u99 nwy i (j + 1))
        omega
      · intro _
        rcases Nat.lt_or_ge (j + 1) (d99Go x y uu u99 nwy i f (j + 1)
            (d99Step x y uu u99 nwy i (j + 1))).2 with hlt | hge
        · exact (ih (j + 1) _).2 hlt
        · have hge2 := d99Go_snd_ge x y uu u99 nwy i f (j + 1)
            (d99Step x y uu u99 nwy i (j + 1))
          have heq : (d99Go x y uu u99 nwy i f (j + 1)
              (d99Step x y uu u99 nwy i (j + 1))).2 = j + 1 := le_antisymm hge hge2
          rw [(ih (j + 1) _).1 heq, heq]
    · exact ⟨fun _ => rfl, fun h => absurd h (lt_irrefl j)⟩

/-- C4 (amended): when the edge-search loop of `_d99_thickness` runs at
least once at station `i` and exits at index `jf`, the stored `d99[i]` is
the *last-iteration* assignment `d99Step` at `jf`: the straight-line
(chord) distance from the wall point to grid point `jf - 1` — not the
accumulated arc length — plus the linear interpolation within the last
segment, projected by `|normal_w[1, i]|`. -/
theorem d99_chord_plus_last_segment (ny : Nat) (x y uu : Nat → Nat → ℚ)
    (u99 nwy : ℚ) (i : Nat) (h : 0 < (d99Station ny x y uu u99 nwy i).2) :
    (d99Station ny x y uu u99 nwy i).1
      = d99Step x y uu u99 nwy i ((d99Station ny x y uu u99 nwy i).2) :=
  (d99Go_char x y uu u99 nwy i (ny - 1) 0 0).2 h

/-- Witness for C4 on the curved probing path: the loop exits at `jf = 3`
and `d99` equals the last-iteration chord-based formula there. -/
theorem d99_chord_plus_last_segment_witness :
    (d99Station 4 c4x c4y c4u (99 / 10) 1 0).1
      = d99Step c4x c4y c4u (99 / 10) 1 0 ((d99Station 4 c4x c4y c4u (99 / 10) 1 0).2) :=
  d99_chord_plus_last_segment 4 c4x c4y c4u (99 / 10) 1 0
    (by rw [show (d99Station 4 c4x c4y c4u (99 / 10) 1 0).2 = 3 from by with_unfolding_all rfl]
        norm_num)

/-- Counterexample to C4 as stated: on the curved path `(0,0) → (3,4) →
(6,0) → (6,8)` with velocities `0, 1, 2, 10` and `0.99·ufst = 9.9`, the
code returns `|(8·(9.9-2)/(10-2) + chord 6)·1| = 13.9`, while the claimed
accumulated-arc-length rule gives `|(7.9 + (5+5))·1| = 17.9`. -/
theorem d99_arc_length_refuted :
    (d99Station 4 c4x c4y c4u (99 / 10) 1 0).1 = 139 / 10
    ∧ d99SpecStation 4 c4x c4y c4u (99 / 10) 1 0 = 179 / 10
    ∧ ¬ ((139 : ℚ) / 10 = 179 / 10) := by
  refine ⟨by with_unfolding_all rfl, by with_unfolding_all rfl, by norm_num⟩

/-! ## C8: structure of the repaired splice -/

/-- C8: when discontinuities exist and the first is not at the very first
point, the repaired `u_fst` is the splice of the σ=2-smoothed left anchor
`u[0:i1]`, the interpolated replacement evaluated at the physical
`x`-coordinates of `[i1, i2)` (interpolant built through the concatenated
smoothed anchors), and the σ=3-smoothed right anchor `u[i2:]`; it has the
same total length as the input, and `j_fst` is overwritten with
`j_fst[i2]` on `[i1, i2)`. -/
theorem checkVel_repair_splice (sm : ℚ → List ℚ → List ℚ)
    (ip : List ℚ → List ℚ → ℚ → ℚ) (x : Nat → Nat → ℚ) (u jf : List ℚ)
    (hsm : ∀ s l, (sm s l).length = l.length)
    (hne : discList u ≠ []) (h0 : (discList u).headD 0 ≠ 0) :
    (checkVelDiscontinuity sm ip x u jf).1
      = sm 2 (u.take (repairI1 u))
        ++ (List.range' (repairI1 u) (repairI2 u - repairI1 u)).map
            (fun t => ip
              ((List.range (repairI1 u)).map
                  (fun s => x s (pyIntNat (jf.getD (repairI1 u) 0)))
                ++ (List.range' (repairI2 u) (u.length - repairI2 u)).map
                    (fun s => x s (pyIntNat (jf.getD (repairI2 u) 0))))
              (sm 2 (u.take (repairI1 u)) ++ sm 3 (u.drop (repairI2 u)))
              (x t (pyIntNat (jf.getD (repairI2 u) 0))))
        ++ sm 3 (u.drop (repairI2 u))
    ∧ (checkVelDiscontinuity sm ip x u jf).1.length = u.length
    ∧ (checkVelDiscontinuity sm ip x u jf).2
      = (List.range jf.length).map
          (fun t => if repairI1 u ≤ t ∧ t < repairI2 u
            then jf.getD (repairI2 u) 0 else jf.getD t 0) := by
  rcases hd : discList u with _ | ⟨a, rest⟩
  · exact absurd hd hne
  have ha : a ≠ 0 := by rw [hd] at h0; simpa using h0
  have h1 : (checkVelDiscontinuity sm ip x u jf).1
      = sm 2 (u.take (repairI1 u))
        ++ (List.range' (repairI1 u) (repairI2 u - repairI1 u)).map
            (fun t => ip
              ((List.range (repairI1 u)).map
                  (fun s => x s (pyIntNat (jf.getD (repairI1 u) 0)))
                ++ (List.range' (repairI2 u) (u.length - repairI2 u)).map
                    (fun s => x s (pyIntNat (jf.getD (repairI2 u) 0))))
              (sm 2 (u.take (repairI1 u)) ++ sm 3 (u.drop (repairI2 u)))
              (x t (pyIntNat (jf.getD (repairI2 u) 0))))
        ++ sm 3 (u.drop (repairI2 u)) := by
    unfold checkVelDiscontinuity repairI1 repairI2
    rw [hd]
    simp only [List.isEmpty_cons, List.headD_cons, Bool.false_eq_true, if_false,
      if_neg ha, List.map_map]
    rfl
  have h3 : (checkVelDiscontinuity sm ip x u jf).2
      = (List.range jf.length).map
          (fun t => if repairI1 u ≤ t ∧ t < repairI2 u
            then jf.getD (repairI2 u) 0 else jf.getD t 0) := by
    unfold checkVelDiscontinuity repairI1 repairI2
    rw [hd]
    simp only [List.isEmpty_cons, List.headD_cons, Bool.false_eq_true, if_false,
      if_neg ha]
  refine ⟨h1, ?_, h3⟩
  have hmem_a : a ∈ discList u := by rw [hd]; exact List.mem_cons_self a rest
  have hlast_mem : lastD (a :: rest) 0 ∈ discList u := by
    rw [hd]; exact lastD_mem_cons rest a 0
  have hba : a < u.length - 1 := discList_bound u a hmem_a
  have hbl : lastD (a :: rest) 0 < u.length - 1 := discList_bound u _ hlast_mem
  have hal : a ≤ lastD (a :: rest) 0 := headD_le_lastD rest a (hd ▸ discList_pairwise u)
  have hi1 : repairI1 u = a - 1 := by unfold repairI1; rw [hd, List.headD_cons]
  have hi2 : repairI2 u = lastD (a :: rest) 0 + 1 := by unfold repairI2; rw [hd]
  rw [h1]
  simp only [List.length_append, List.length_map, List.length_range', hsm,
    List.length_take, List.length_drop, hi1, hi2]
  omega

/-- Witness for C8: the repaired array keeps the input length. -/
theorem checkVel_repair_splice_witness :
    (checkVelDiscontinuity smoothId interpZero cexX c8u c8j).1.length = c8u.length :=
  (checkVel_repair_splice smoothId interpZero cexX c8u c8j (fun _ _ => rfl)
    (by rw [show discList c8u = [1, 2] from by with_unfolding_all rfl]; simp)
    (by rw [show discList c8u = [1, 2] from by with_unfolding_all rfl]; simp)).2.1

end PPMusicaa
